import Mathlib

/-!
Shallow embedding of the bias-discovery pipeline
(Interpretable Automatic Bias Discovery in ASR).

Numeric cells are modelled as rationals (ℚ).  Pandas DataFrames are
modelled per operation: the group-WER table as a list of
(model, group, WER) rows, the analysis table as a list of rows carrying
the error counts, a feature CSV as a column-indexed table.
Pandas/NumPy behaviours that produce NaN/undefined values (mean of an
empty selection, division by zero) are modelled with `Option ℚ`, where
`none` stands for the undefined value.
-/

namespace ASRBias

/-! ### `python/utils.py` -/

/-- Function `word_error_rate(insertions, deletions, substitutions, words)`:
`((insertions + deletions + substitutions) / words) * 100`. -/
def word_error_rate (insertions deletions substitutions words : ℚ) : ℚ :=
  ((insertions + deletions + substitutions) / words) * 100

/-! ### `python/evaluation/metrics.py` — bias measures -/

/-- Method `DiffBias.compute_bias`: `group_error_rate - reference_error_rate`. -/
def DiffBias.compute_bias (group_error_rate reference_error_rate : ℚ) : ℚ :=
  group_error_rate - reference_error_rate

/-- NumPy-float subtraction lifted to possibly-undefined values
(`none` = NaN/undefined). -/
def nsub : Option ℚ → Option ℚ → Option ℚ
  | some a, some b => some (a - b)
  | _, _ => none

/-- NumPy-float division lifted to possibly-undefined values: dividing by
zero yields the undefined value (inf/NaN in NumPy), and an undefined
operand propagates. -/
def ndiv : Option ℚ → Option ℚ → Option ℚ
  | some a, some b => if b = 0 then none else some (a / b)
  | _, _ => none

/-- Method `RelDiffBias.compute_bias`:
`(group_error_rate - reference_error_rate) / reference_error_rate`,
written with the lifted operators; the body has no special case for a
zero reference, exactly as in the source. -/
def RelDiffBias.compute_bias (group_error_rate reference_error_rate : Option ℚ) :
    Option ℚ :=
  ndiv (nsub group_error_rate reference_error_rate) reference_error_rate

/-! ### `python/evaluation/metrics.py` — `OverallBias.compute` -/

/-- One row of the group-WER table handed to `OverallBias.compute`
(index levels `Model` and the label field, one `WER` column). -/
structure WerRow where
  model : String
  group : String
  wer : ℚ
deriving DecidableEq, Repr

/-- Pandas `Series.min`: minimum of the values, `none` on an empty
series. -/
def seriesMin : List ℚ → Option ℚ
  | [] => none
  | x :: xs => some (xs.foldl min x)

/-- Pandas `Series.mean`: arithmetic mean, NaN (`none`) on an empty
series. -/
def seriesMean (xs : List ℚ) : Option ℚ :=
  if xs = [] then none else some (xs.sum / xs.length)

/-- The distinct keys of a pandas `groupby`, in order of first
appearance (the claims only depend on which keys occur, not on their
order; `List.dedup` is used so membership lemmas apply). -/
def groupbyKeys (models : List String) : List String :=
  models.dedup

/-- Body of the `for name, group in group_error_rates_per_model` loop of
`OverallBias.compute`, for one model's partition `rows`:
reference = `group['WER'].min()`, the mask `misrecognized_groups` is
`group['WER'] != reference_error_rate`, biases are computed with the
configured measure, and the overall bias is the mean of the biases of
the mask-selected rows. -/
def overallBiasForModel (bias_measure : ℚ → ℚ → ℚ) (rows : List WerRow) :
    Option ℚ :=
  match seriesMin (rows.map (·.wer)) with
  | none => none
  | some reference_error_rate =>
      let misrecognized := rows.filter (fun r => r.wer ≠ reference_error_rate)
      seriesMean (misrecognized.map (fun r => bias_measure r.wer reference_error_rate))

/-- First component of the result of `OverallBias.compute`: the overall
bias per ASR model (`overall_bias_per_model_df`). -/
def OverallBias.compute (bias_measure : ℚ → ℚ → ℚ) (table : List WerRow) :
    List (String × Option ℚ) :=
  (groupbyKeys (table.map (·.model))).map
    (fun m => (m, overallBiasForModel bias_measure (table.filter (·.model = m))))

/-- Second component of the result of `OverallBias.compute`: the input
rows annotated with their bias value (`bias_df`). -/
def OverallBias.computeBiasTable (bias_measure : ℚ → ℚ → ℚ)
    (table : List WerRow) : List (WerRow × ℚ) :=
  (groupbyKeys (table.map (·.model))).flatMap
    (fun m =>
      let rows := table.filter (·.model = m)
      match seriesMin (rows.map (·.wer)) with
      | none => []
      | some ref => rows.map (fun r => (r, bias_measure r.wer ref)))

/-! ### `python/evaluation/grouping_performance.py` -/

/-- One row of the merged analysis table, as used by `get_group_WERs`:
the ASR model, the value of the label field (`Group`/`Cluster`), and the
numeric error counts `# Wrd`, `Sub`, `Del`, `Ins`. -/
structure AnalysisRow where
  model : String
  label : String
  wrd : ℚ
  sub : ℚ
  del : ℚ
  ins : ℚ
deriving DecidableEq, Repr

/-- Distinct `(Model, label field)` keys of the groupby in
`get_group_WERs` (order is irrelevant to the claims). -/
def analysisKeys (t : List AnalysisRow) : List (String × String) :=
  (t.map (fun r => (r.model, r.label))).dedup

/-- Sum of a numeric column over the rows of one groupby partition
(`agg('sum')`). -/
def sumBy (t : List AnalysisRow) (k : String × String) (f : AnalysisRow → ℚ) : ℚ :=
  ((t.filter (fun r => (r.model, r.label) = k)).map f).sum

/-- Method `GroupingPerformance.get_group_WERs`: group by `(Model, label)`,
sum the counts, then apply
`word_error_rate(spkr['Sub'], spkr['Del'], spkr['Ins'], spkr['# Wrd'])`
to each summed row — argument order as in the source call site. -/
def get_group_WERs (t : List AnalysisRow) : List ((String × String) × ℚ) :=
  (analysisKeys t).map
    (fun k =>
      (k, word_error_rate (sumBy t k (·.sub)) (sumBy t k (·.del))
            (sumBy t k (·.ins)) (sumBy t k (·.wrd))))

/-- A row of the labeled feature table (`grouping_data`), keyed by
`Filename`; the payload stands for the feature columns and the group
label. -/
structure GroupingRow where
  filename : ℕ
  payload : ℕ
deriving DecidableEq, Repr

/-- A row of the recognition-output table (`performance_data`), keyed by
`Filename`; the payload stands for the error counts and model column. -/
structure PerformanceRow where
  filename : ℕ
  payload : ℕ
deriving DecidableEq, Repr

/-- Method `GroupingPerformance.merge_data`:
`performance_data.merge(grouping_data, on='Filename')`, a pandas inner
join — every pair of rows agreeing on `Filename` produces one output
row, rows without a partner are dropped, no error is raised. -/
def merge_data (performance_data : List PerformanceRow)
    (grouping_data : List GroupingRow) : List (PerformanceRow × GroupingRow) :=
  performance_data.flatMap
    (fun p => (grouping_data.filter (fun g => g.filename = p.filename)).map
      (fun g => (p, g)))

/-! ### `python/clustering/data_prep.py` — the feature DataFrame

A column-oriented model of the pandas DataFrame read by `DataPrep`:
the ordered list of column names and, per column name, the list of cell
values. -/

/-- Python exceptions raised by the embedded code, under the names the
design documentation gives them: pandas `KeyError` on a missing column
is `DataFormatError`, pandas `ValueError` on a length mismatch is
`ShapeMismatchError`, and Python's `TypeError` keeps its name. -/
inductive DataError where
  | DataFormatError
  | ShapeMismatchError
  | TypeError
deriving DecidableEq, Repr

/-- Column-oriented DataFrame: ordered column names, contents per
column name, and the number of rows. -/
structure DF where
  cols : List String
  col : String → List ℚ
  nrows : ℕ

/-- Column selection `df[c]`: pandas raises `KeyError` when the column
is absent. -/
def DF.getCol (df : DF) (c : String) : Except DataError (List ℚ) :=
  if c ∈ df.cols then Except.ok (df.col c) else Except.error DataError.DataFormatError

/-- Column assignment `df[c] = v`: overwrites an existing column,
appends a new one at the end. -/
def DF.setCol (df : DF) (c : String) (v : List ℚ) : DF :=
  { cols := if c ∈ df.cols then df.cols else df.cols ++ [c]
    col := fun x => if x = c then v else df.col x
    nrows := df.nrows }

/-- Method `df.drop(columns=dropcolumns, errors='ignore')`: removes the
named columns, silently ignoring names that do not exist. -/
def DF.dropCols (df : DF) (dropcolumns : List String) : DF :=
  { cols := df.cols.filter (fun c => c ∉ dropcolumns)
    col := df.col
    nrows := df.nrows }

/-- The articulation-rate column used by the hardcoded
duration-normalization transform. -/
def articulationField : String := "Mean Articulation Rate (phpm)"

/-- The five hardcoded phoneme-duration fields of `DataPrep.__init__`,
in source order. -/
def durationFields : List String :=
  ["Mean Duration O (s)", "Mean Duration E (s)", "Mean Duration A (s)",
   "Mean Duration u (s)", "Mean Duration @ (s)"]

/-- One `if field in columnlist:` branch of `DataPrep.__init__`:
`df[field] = df[field] * df[articulationField] / 60` when the field is
present, nothing otherwise.  Looking up the articulation column can
raise a `KeyError` (`DataFormatError`). -/
def transformDuration (field : String) (df : DF) : Except DataError DF :=
  if field ∈ df.cols then
    if articulationField ∈ df.cols then
      Except.ok (df.setCol field
        (List.zipWith (fun d a => d * a / 60) (df.col field) (df.col articulationField)))
    else Except.error DataError.DataFormatError
  else Except.ok df

/-- The duration-normalization phase of `DataPrep.__init__`: the five
hardcoded conditional transforms, in order. -/
def applyDurationTransforms (df : DF) : Except DataError DF :=
  durationFields.foldlM (fun acc f => transformDuration f acc) df

/-- Default feature metadata of `DataPrep.__init__`:
`{csvfield: (csvfield, "Value") for csvfield in self.data.columns[1:]}`. -/
def defaultCustomFeatures (cols : List String) : List (String × String × String) :=
  (cols.drop 1).map (fun c => (c, c, "Value"))

/-- The `for csvfield in feature_dict:` override loop of
`DataPrep.__init__`: an entry replaces the default pair only when its
key is already among the custom features. -/
def overrideFeatures (cf : List (String × String × String))
    (fd : List (String × String × String)) : List (String × String × String) :=
  fd.foldl
    (fun acc kv =>
      if acc.any (fun p => p.1 = kv.1) then
        acc.map (fun p => if p.1 = kv.1 then kv else p)
      else acc)
    cf

/-- State of a constructed `DataPrep` object. -/
structure DataPrep where
  speaking_style : String
  data : DF
  audiofile_ids : List ℚ
  custom_features : List (String × String × String)
  normalized_data : Option (List (List ℚ))

/-- Constructor `DataPrep.__init__` (the CSV read is abstracted into the
`file_data` argument): duration transforms, column drop, the
`self.data['Filename']` lookup, the default feature metadata, and the
override loop.  When `feature_dict` is `None`, Python raises `TypeError`
at `for csvfield in feature_dict:`. -/
def dataPrepInit (file_data : DF) (speaking_style : String)
    (feature_dict : Option (List (String × String × String)))
    (dropcolumns : List String) : Except DataError DataPrep := do
  let data ← applyDurationTransforms file_data
  let data := data.dropCols dropcolumns
  let audiofile_ids ← data.getCol "Filename"
  let cf := defaultCustomFeatures data.cols
  let cf ←
    match feature_dict with
    | none => Except.error DataError.TypeError
    | some fd => Except.ok (overrideFeatures cf fd)
  Except.ok
    { speaking_style := speaking_style
      data := data
      audiofile_ids := audiofile_ids
      custom_features := cf
      normalized_data := none }

/-- Column selection `self.data[feature_columns]` as a matrix, one list
per selected column. -/
def selectMatrix (df : DF) (cols : List String) : List (List ℚ) :=
  cols.map df.col

/-- The feature columns: the keys of `get_custom_features()`. -/
def featureColumns (dp : DataPrep) : List String :=
  dp.custom_features.map (·.1)

/-- Method `DataPrep.normalize_data`: stores
`scaler.fit_transform(self.data[feature_columns])` in
`normalized_data` (the scaler is an abstract matrix transformer). -/
def normalize_data (scaler : List (List ℚ) → List (List ℚ)) (dp : DataPrep) :
    DataPrep :=
  { dp with normalized_data := some (scaler (selectMatrix dp.data (featureColumns dp))) }

/-- Method `DataPrep.get_normalized_data`: when `normalized_data` is
`None` it first calls `normalize_data(scaler)`; it returns the stored
matrix together with the (possibly updated) object state. -/
def get_normalized_data (scaler : List (List ℚ) → List (List ℚ)) (dp : DataPrep) :
    Option (List (List ℚ)) × DataPrep :=
  match dp.normalized_data with
  | none =>
      let dp' := normalize_data scaler dp
      (dp'.normalized_data, dp')
  | some m => (some m, dp)

/-! ### `python/clustering/grouping.py` -/

/-- A feature table with an appended group-label column. -/
structure LabeledDF where
  base : DF
  labelField : String
  labels : List String

/-- Pandas `df.assign(**{fieldname: labels})` with a list value: raises
`ValueError` (`ShapeMismatchError`) when the list length differs from
the number of rows. -/
def assignColumn (df : DF) (fieldname : String) (labels : List String) :
    Except DataError LabeledDF :=
  if labels.length = df.nrows then Except.ok ⟨df, fieldname, labels⟩
  else Except.error DataError.ShapeMismatchError

/-- State of a constructed `Grouping` object. -/
structure Grouping where
  label_fieldname : String
  group_labels : List String
  data_with_group_labels : LabeledDF

/-- Constructor `PredefinedGrouping.__init__`: label field `'Group'`,
stores the given labels and calls `_add_labels()`, which runs
`data.assign(**{'Group': group_labels})`. -/
def PredefinedGrouping.init (data_prep : DataPrep) (group_labels : List String) :
    Except DataError Grouping :=
  (assignColumn data_prep.data "Group" group_labels).map
    (fun l => ⟨"Group", group_labels, l⟩)

/-! ### Concrete instances used by the claim witnesses -/

/-- The concrete group-WER table of the C1 instance:
group WERs `{A: 10, B: 10, C: 20}` for model `M`. -/
def tieTable : List WerRow :=
  [⟨"M", "A", 10⟩, ⟨"M", "B", 10⟩, ⟨"M", "C", 20⟩]

/-- The concrete analysis table of the C2 instance: two rows for one
(model, group) whose summed counts are W=20, S=2, D=1, I=1. -/
def countTable : List AnalysisRow :=
  [⟨"M", "G", 10, 1, 1, 0⟩, ⟨"M", "G", 10, 1, 0, 1⟩]

/-- The recognition-output table of the C3 instance, ids {2, 3, 4}. -/
def recOut234 : List PerformanceRow := [⟨2, 0⟩, ⟨3, 0⟩, ⟨4, 0⟩]

/-- The labeled feature table of the C3 instance, ids {1, 2, 3}. -/
def feat123 : List GroupingRow := [⟨1, 0⟩, ⟨2, 0⟩, ⟨3, 0⟩]

/-- A concrete two-row feature DataFrame with an identifier column. -/
def sampleDF : DF :=
  { cols := ["Filename", "F1"]
    col := fun c => if c = "Filename" then [1, 2] else if c = "F1" then [3, 4] else []
    nrows := 2 }

/-- A concrete `DataPrep` over `sampleDF` with no normalized matrix. -/
def sampleDataPrep : DataPrep :=
  { speaking_style := "read"
    data := sampleDF
    audiofile_ids := [1, 2]
    custom_features := [("F1", "F1", "Value")]
    normalized_data := none }

/-- A concrete `DataPrep` whose normalized matrix is already stored. -/
def normalizedDataPrep : DataPrep :=
  { speaking_style := "read"
    data := sampleDF
    audiofile_ids := [1, 2]
    custom_features := [("F1", "F1", "Value")]
    normalized_data := some [[0, 1]] }

/-- The duplicate-keyed recognition-output table of the C9
counterexample: two rows (two models) for the same `Filename`. -/
def dupPerf : List PerformanceRow := [⟨1, 0⟩, ⟨1, 1⟩]

/-- The one-row labeled feature table of the C9 counterexample. -/
def oneFeat : List GroupingRow := [⟨1, 0⟩]

/-! ## Helper lemmas -/

/-- The embedded `Series.min` agrees with `List.min?`. -/
lemma seriesMin_eq_min? (l : List ℚ) : seriesMin l = l.min? := by
  cases l <;> rfl

/-- A member below every element of the list is the `Series.min`. -/
lemma seriesMin_eq_some {l : List ℚ} {a : ℚ} (ha : a ∈ l)
    (hmin : ∀ x ∈ l, a ≤ x) : seriesMin l = some a := by
  rw [seriesMin_eq_min?]
  haveI : Std.Antisymm ((· : ℚ) ≤ ·) := ⟨fun h h' => le_antisymm h h'⟩
  exact (List.min?_eq_some_iff (fun a => le_refl a) (fun a b => min_choice a b)
    (fun a b c => le_min_iff)).mpr ⟨ha, hmin⟩

/-- The embedded `Series.mean` of a nonempty series is sum over length. -/
lemma seriesMean_eq_some {xs : List ℚ} (h : xs ≠ []) :
    seriesMean xs = some (xs.sum / xs.length) := by
  simp [seriesMean, h]

/-- Value of the per-model loop body of `OverallBias.compute` when `ref`
is the minimum WER of the partition and some group's WER differs from
it. -/
lemma overallBiasForModel_eq (bias : ℚ → ℚ → ℚ) (rows : List WerRow) (ref : ℚ)
    (hmem : ref ∈ rows.map (·.wer)) (hmin : ∀ r ∈ rows, ref ≤ r.wer)
    (hne : rows.filter (fun r => r.wer ≠ ref) ≠ []) :
    overallBiasForModel bias rows =
      some (((rows.filter (fun r => r.wer ≠ ref)).map (fun r => bias r.wer ref)).sum /
        ((rows.filter (fun r => r.wer ≠ ref)).length : ℚ)) := by
  have hsm : seriesMin (rows.map (·.wer)) = some ref :=
    seriesMin_eq_some hmem (by
      intro x hx
      obtain ⟨r, hr, rfl⟩ := List.mem_map.mp hx
      exact hmin r hr)
  unfold overallBiasForModel
  rw [hsm]
  have hmapne : (rows.filter (fun r => r.wer ≠ ref)).map (fun r => bias r.wer ref) ≠ [] := by
    intro hcon
    exact hne (List.map_eq_nil_iff.mp hcon)
  show seriesMean ((rows.filter (fun r => r.wer ≠ ref)).map (fun r => bias r.wer ref)) = _
  rw [seriesMean_eq_some hmapne, List.length_map]

/-- Binding a success in `Except` applies the continuation. -/
lemma except_bind_ok {ε α β : Type} (a : α) (g : α → Except ε β) :
    (Except.ok a >>= g) = g a := rfl

/-- Binding a failure in `Except` keeps the failure. -/
lemma except_bind_error {ε α β : Type} (e : ε) (g : α → Except ε β) :
    ((Except.error e : Except ε α) >>= g) = Except.error e := rfl

/-- A single duration transform can fail only with a missing-column
error (the articulation-rate `KeyError`). -/
lemma transformDuration_error {f : String} {df : DF} {e : DataError}
    (h : transformDuration f df = Except.error e) :
    e = DataError.DataFormatError := by
  unfold transformDuration at h
  by_cases hf : f ∈ df.cols
  · rw [if_pos hf] at h
    by_cases ha : articulationField ∈ df.cols
    · rw [if_pos ha] at h
      exact Except.noConfusion h
    · rw [if_neg ha] at h
      injection h with h'
      rw [h']
  · rw [if_neg hf] at h
    exact Except.noConfusion h

/-- A successful duration transform leaves the column list unchanged. -/
lemma transformDuration_cols {f : String} {df df' : DF}
    (h : transformDuration f df = Except.ok df') : df'.cols = df.cols := by
  unfold transformDuration at h
  by_cases hf : f ∈ df.cols
  · rw [if_pos hf] at h
    by_cases ha : articulationField ∈ df.cols
    · rw [if_pos ha] at h
      injection h with h'
      rw [← h']
      simp [DF.setCol, hf]
    · rw [if_neg ha] at h
      exact Except.noConfusion h
  · rw [if_neg hf] at h
    injection h with h'
    rw [h']

/-- The duration-transform fold can fail only with a missing-column
error. -/
lemma foldTransform_error :
    ∀ (fs : List String) (df : DF) (e : DataError),
      fs.foldlM (fun acc f => transformDuration f acc) df = Except.error e →
      e = DataError.DataFormatError := by
  intro fs
  induction fs with
  | nil =>
      intro df e h
      rw [List.foldlM_nil] at h
      exact Except.noConfusion h
  | cons f rest ih =>
      intro df e h
      rw [List.foldlM_cons] at h
      cases hstep : transformDuration f df with
      | error e' =>
          rw [hstep, except_bind_error] at h
          injection h with h'
          exact h' ▸ transformDuration_error hstep
      | ok mid =>
          rw [hstep, except_bind_ok] at h
          exact ih mid e h

/-- The duration-transform fold preserves the column list. -/
lemma foldTransform_cols :
    ∀ (fs : List String) (df df' : DF),
      fs.foldlM (fun acc f => transformDuration f acc) df = Except.ok df' →
      df'.cols = df.cols := by
  intro fs
  induction fs with
  | nil =>
      intro df df' h
      rw [List.foldlM_nil] at h
      injection h with h'
      rw [h']
  | cons f rest ih =>
      intro df df' h
      rw [List.foldlM_cons] at h
      cases hstep : transformDuration f df with
      | error e' =>
          rw [hstep, except_bind_error] at h
          exact Except.noConfusion h
      | ok mid =>
          rw [hstep, except_bind_ok] at h
          rw [ih mid df' h, transformDuration_cols hstep]

/-- Full behaviour of a duration-transform fold over distinct fields
not containing the articulation column, when the articulation column is
present: it succeeds, preserves the column list, rewrites each present
field by the `d * a / 60` rule against the untouched articulation
column, and leaves every other column, and every absent field,
unchanged. -/
lemma foldTransform_spec :
    ∀ (fs : List String) (df : DF),
      articulationField ∈ df.cols → fs.Nodup → articulationField ∉ fs →
      ∃ df', fs.foldlM (fun acc f => transformDuration f acc) df = Except.ok df' ∧
        df'.cols = df.cols ∧
        (∀ c, c ∉ fs → df'.col c = df.col c) ∧
        (∀ f ∈ fs, f ∈ df.cols →
          df'.col f = List.zipWith (fun d a => d * a / 60) (df.col f)
            (df.col articulationField)) ∧
        (∀ f ∈ fs, f ∉ df.cols → df'.col f = df.col f) := by
  intro fs
  induction fs with
  | nil =>
      intro df _ _ _
      exact ⟨df, by rw [List.foldlM_nil]; rfl, rfl, fun _ _ => rfl, by simp, by simp⟩
  | cons f rest ih =>
      intro df hartic hnodup hnot
      obtain ⟨hf_rest, hrest⟩ := List.nodup_cons.mp hnodup
      have hartic_ne_f : articulationField ≠ f :=
        fun hh => hnot (hh ▸ List.mem_cons_self f rest)
      have hartic_rest : articulationField ∉ rest :=
        fun hh => hnot (List.mem_cons_of_mem f hh)
      by_cases hmem : f ∈ df.cols
      · set mid := df.setCol f
          (List.zipWith (fun d a => d * a / 60) (df.col f) (df.col articulationField))
          with hmid
        have hstep : transformDuration f df = Except.ok mid := by
          unfold transformDuration
          rw [if_pos hmem, if_pos hartic]
        have hmid_cols : mid.cols = df.cols := by
          simp [hmid, DF.setCol, hmem]
        have hmid_col_ne : ∀ c, c ≠ f → mid.col c = df.col c := by
          intro c hc
          simp [hmid, DF.setCol, hc]
        have hmid_col_f : mid.col f =
            List.zipWith (fun d a => d * a / 60) (df.col f) (df.col articulationField) := by
          simp [hmid, DF.setCol]
        have hmid_artic : mid.col articulationField = df.col articulationField :=
          hmid_col_ne _ hartic_ne_f
        obtain ⟨df', hfold, hcols, hother, hpres, habs⟩ :=
          ih mid (by rw [hmid_cols]; exact hartic) hrest hartic_rest
        refine ⟨df', ?_, by rw [hcols, hmid_cols], ?_, ?_, ?_⟩
        · rw [List.foldlM_cons, hstep, except_bind_ok]
          exact hfold
        · intro c hc
          have hc_f : c ≠ f := fun hh => hc (hh ▸ List.mem_cons_self f rest)
          have hc_rest : c ∉ rest := fun hh => hc (List.mem_cons_of_mem f hh)
          rw [hother c hc_rest, hmid_col_ne c hc_f]
        · intro g hg hgcols
          rcases List.mem_cons.mp hg with hgf | hgr
          · subst hgf
            rw [hother g hf_rest, hmid_col_f]
          · have hgne : g ≠ f := fun hh => hf_rest (hh ▸ hgr)
            have hgc : g ∈ mid.cols := by rw [hmid_cols]; exact hgcols
            rw [hpres g hgr hgc, hmid_col_ne g hgne, hmid_artic]
        · intro g hg hgcols
          rcases List.mem_cons.mp hg with hgf | hgr
          · subst hgf
            exact absurd hmem hgcols
          · have hgne : g ≠ f := fun hh => hf_rest (hh ▸ hgr)
            have hgc : g ∉ mid.cols := by rw [hmid_cols]; exact hgcols
            rw [habs g hgr hgc, hmid_col_ne g hgne]
      · have hstep : transformDuration f df = Except.ok df := by
          unfold transformDuration
          rw [if_neg hmem]
        obtain ⟨df', hfold, hcols, hother, hpres, habs⟩ := ih df hartic hrest hartic_rest
        refine ⟨df', ?_, hcols, ?_, ?_, ?_⟩
        · rw [List.foldlM_cons, hstep, except_bind_ok]
          exact hfold
        · intro c hc
          exact hother c (fun hh => hc (List.mem_cons_of_mem f hh))
        · intro g hg hgcols
          rcases List.mem_cons.mp hg with hgf | hgr
          · subst hgf
            exact absurd hgcols hmem
          · exact hpres g hgr hgcols
        · intro g hg hgcols
          rcases List.mem_cons.mp hg with hgf | hgr
          · subst hgf
            exact hother g hf_rest
          · exact habs g hgr hgcols

/-- `applyDurationTransforms` on a frame containing the articulation
column succeeds and rewrites exactly the present duration fields. -/
lemma applyDurationTransforms_spec (df : DF)
    (hartic : articulationField ∈ df.cols) :
    ∃ df', applyDurationTransforms df = Except.ok df' ∧
      df'.cols = df.cols ∧
      (∀ c, c ∉ durationFields → df'.col c = df.col c) ∧
      (∀ f ∈ durationFields, f ∈ df.cols →
        df'.col f = List.zipWith (fun d a => d * a / 60) (df.col f)
          (df.col articulationField)) ∧
      (∀ f ∈ durationFields, f ∉ df.cols → df'.col f = df.col f) :=
  foldTransform_spec durationFields df hartic (by decide) (by decide)

/-- Unfolding `merge_data` over the head of the left table. -/
lemma merge_data_cons (p : PerformanceRow) (P : List PerformanceRow)
    (G : List GroupingRow) :
    merge_data (p :: P) G =
      (G.filter (fun g => g.filename = p.filename)).map (fun g => (p, g)) ++
        merge_data P G := rfl

/-- No row of `G` carries key `k` when `k` is outside `G`'s key list. -/
lemma filter_key_eq_nil {G : List GroupingRow} {k : ℕ}
    (h : k ∉ G.map (·.filename)) :
    G.filter (fun g => g.filename = k) = [] := by
  apply List.filter_eq_nil_iff.mpr
  intro g hg
  simp only [decide_eq_true_eq]
  intro hk
  exact h (List.mem_map.mpr ⟨g, hg, hk⟩)

/-- With duplicate-free keys, at most one row of `G` carries any given
key. -/
lemma filter_key_len_le_one {G : List GroupingRow}
    (hG : (G.map (·.filename)).Nodup) (k : ℕ) :
    (G.filter (fun g => g.filename = k)).length ≤ 1 := by
  induction G with
  | nil => simp
  | cons g G' ih =>
      rw [List.map_cons, List.nodup_cons] at hG
      by_cases hk : g.filename = k
      · rw [List.filter_cons_of_pos (by simpa using hk)]
        rw [filter_key_eq_nil (hk ▸ hG.1)]
        simp
      · rw [List.filter_cons_of_neg (by simpa using hk)]
        exact ih hG.2

/-- The rows of `G` with key `k` and those with another key partition
`G`. -/
lemma length_filter_key_split (G : List GroupingRow) (k : ℕ) :
    (G.filter (fun g => g.filename = k)).length +
      (G.filter (fun g => g.filename ≠ k)).length = G.length := by
  induction G with
  | nil => rfl
  | cons g G' ih =>
      by_cases h : g.filename = k
      · rw [List.filter_cons_of_pos (by simpa using h),
          List.filter_cons_of_neg (by simpa using h)]
        simp only [List.length_cons]
        omega
      · rw [List.filter_cons_of_neg (by simpa using h),
          List.filter_cons_of_pos (by simpa using h)]
        simp only [List.length_cons]
        omega

/-- When no left row carries key `k`, removing the `k`-rows from the
right table does not change the join. -/
lemma merge_data_drop_key {P : List PerformanceRow} {G : List GroupingRow} {k : ℕ}
    (h : ∀ p ∈ P, p.filename ≠ k) :
    merge_data P G = merge_data P (G.filter (fun g => g.filename ≠ k)) := by
  induction P with
  | nil => rfl
  | cons p P' ih =>
      have hp : p.filename ≠ k := h p (List.mem_cons_self p P')
      have hrest : ∀ p' ∈ P', p'.filename ≠ k :=
        fun p' hp' => h p' (List.mem_cons_of_mem p hp')
      rw [merge_data_cons, merge_data_cons, ih hrest]
      congr 1
      rw [List.filter_filter]
      apply congrArg
      apply List.filter_congr
      intro g _
      by_cases hgk : g.filename = p.filename
      · simp [hgk, hp]
      · simp [hgk]

/-- Join row count is bounded by the left row count when the right
table's keys are duplicate-free. -/
lemma merge_len_le_left {P : List PerformanceRow} {G : List GroupingRow}
    (hG : (G.map (·.filename)).Nodup) :
    (merge_data P G).length ≤ P.length := by
  induction P with
  | nil => simp [merge_data]
  | cons p P' ih =>
      rw [merge_data_cons, List.length_append, List.length_map, List.length_cons]
      have h1 := filter_key_len_le_one hG p.filename
      omega

/-- Join row count is bounded by the right row count when the left
table's keys are duplicate-free. -/
lemma merge_len_le_right {P : List PerformanceRow}
    (hP : (P.map (·.filename)).Nodup) :
    ∀ G : List GroupingRow, (merge_data P G).length ≤ G.length := by
  induction P with
  | nil =>
      intro G
      simp [merge_data]
  | cons p P' ih =>
      intro G
      rw [List.map_cons, List.nodup_cons] at hP
      have hrest : ∀ p' ∈ P', p'.filename ≠ p.filename :=
        fun p' hp' heq => hP.1 (List.mem_map.mpr ⟨p', hp', heq⟩)
      rw [merge_data_cons, List.length_append, List.length_map,
        merge_data_drop_key hrest]
      have h1 := ih hP.2 (G.filter (fun g => g.filename ≠ p.filename))
      have h2 := length_filter_key_split G p.filename
      omega

/-! ## Claims -/

/-- C1: for every group-WER table and every model in it,
`OverallBias.compute` takes the reference WER to be the minimum WER
among that model's groups, computes each group's bias against that
reference with the configured measure, and returns as the model's
overall bias the arithmetic mean of the bias values of exactly those
groups whose WER is not equal to the reference WER, so every group tied
at the minimum is excluded from the mean. -/
theorem C1_overall_bias_excludes_min_ties (bias : ℚ → ℚ → ℚ) (t : List WerRow)
    (m : String) (ref : ℚ)
    (hm : m ∈ t.map (·.model))
    (hmem : ref ∈ (t.filter (·.model = m)).map (·.wer))
    (hmin : ∀ r ∈ t.filter (·.model = m), ref ≤ r.wer)
    (hne : (t.filter (·.model = m)).filter (fun r => r.wer ≠ ref) ≠ []) :
    (m, some ((((t.filter (·.model = m)).filter (fun r => r.wer ≠ ref)).map
          (fun r => bias r.wer ref)).sum /
        (((t.filter (·.model = m)).filter (fun r => r.wer ≠ ref)).length : ℚ)))
      ∈ OverallBias.compute bias t := by
  unfold OverallBias.compute groupbyKeys
  apply List.mem_map.mpr
  refine ⟨m, List.mem_dedup.mpr hm, ?_⟩
  rw [overallBiasForModel_eq bias (t.filter (·.model = m)) ref hmem hmin hne]

/-- Witness for C1 at the table `{A: 10, B: 10, C: 20}` under the
Difference measure: the hypotheses hold there, the theorem places the
mean of the non-tied biases in the result, and that overall bias is
exactly 10. -/
theorem C1_overall_bias_excludes_min_ties_witness :
    ("M" ∈ tieTable.map (·.model)
      ∧ (10 : ℚ) ∈ (tieTable.filter (·.model = "M")).map (·.wer)
      ∧ (∀ r ∈ tieTable.filter (·.model = "M"), (10 : ℚ) ≤ r.wer)
      ∧ (tieTable.filter (·.model = "M")).filter (fun r => r.wer ≠ (10 : ℚ)) ≠ [])
    ∧ ("M", some ((((tieTable.filter (·.model = "M")).filter
            (fun r => r.wer ≠ (10 : ℚ))).map
              (fun r => DiffBias.compute_bias r.wer 10)).sum /
          ((((tieTable.filter (·.model = "M")).filter
            (fun r => r.wer ≠ (10 : ℚ))).length : ℚ))))
        ∈ OverallBias.compute DiffBias.compute_bias tieTable
    ∧ OverallBias.compute DiffBias.compute_bias tieTable = [("M", some 10)] :=
  ⟨⟨by decide, by decide, by decide, by decide⟩,
    C1_overall_bias_excludes_min_ties DiffBias.compute_bias tieTable "M" 10
      (by decide) (by decide) (by decide) (by decide),
    by norm_num [OverallBias.compute, groupbyKeys, tieTable, overallBiasForModel,
      seriesMin, seriesMean, DiffBias.compute_bias, List.dedup]⟩

/-- C2: `get_group_WERs` groups rows by (model, label field), sums the
word, substitution, deletion and insertion counts within each group,
and returns per (model, group) the WER
`((substitutions + deletions + insertions) / words) * 100`; moreover
every entry of the returned table has exactly this value. -/
theorem C2_group_wer_formula (t : List AnalysisRow) (k : String × String)
    (hk : k ∈ analysisKeys t) :
    (k, ((sumBy t k (·.sub) + sumBy t k (·.del) + sumBy t k (·.ins)) /
        sumBy t k (·.wrd)) * 100) ∈ get_group_WERs t
    ∧ ∀ v, (k, v) ∈ get_group_WERs t →
        v = ((sumBy t k (·.sub) + sumBy t k (·.del) + sumBy t k (·.ins)) /
          sumBy t k (·.wrd)) * 100 := by
  constructor
  · exact List.mem_map.mpr ⟨k, hk, rfl⟩
  · intro v hv
    obtain ⟨k', _, heq⟩ := List.mem_map.mp hv
    injection heq with h1 h2
    subst h1
    exact h2.symm

/-- Witness for C2 at summed counts S=2, D=1, I=1, W=20: the key is in
the table, the theorem applies, and the returned WER is exactly 20. -/
theorem C2_group_wer_formula_witness :
    (("M", "G") ∈ analysisKeys countTable)
    ∧ ((("M", "G"), ((sumBy countTable ("M", "G") (·.sub) +
          sumBy countTable ("M", "G") (·.del) +
          sumBy countTable ("M", "G") (·.ins)) /
            sumBy countTable ("M", "G") (·.wrd)) * 100)
        ∈ get_group_WERs countTable)
    ∧ get_group_WERs countTable = [(("M", "G"), 20)] :=
  ⟨by decide,
    (C2_group_wer_formula countTable ("M", "G") (by decide)).1,
    by norm_num [get_group_WERs, analysisKeys, countTable, sumBy,
      word_error_rate, List.dedup]⟩

/-- C3: the identifier keys of the table produced by `merge_data` are
exactly the intersection of the two inputs' key sets (and no error is
raised — `merge_data` is total); in particular, inputs with ids
{1,2,3} and {2,3,4} yield a merged table with exactly the ids {2,3}. -/
theorem C3_merge_keys_intersection :
    (∀ (P : List PerformanceRow) (G : List GroupingRow) (k : ℕ),
      k ∈ (merge_data P G).map (fun pr => pr.1.filename) ↔
        (k ∈ P.map (·.filename) ∧ k ∈ G.map (·.filename)))
    ∧ (merge_data recOut234 feat123).map (fun pr => pr.1.filename) = [2, 3] := by
  constructor
  · intro P G k
    constructor
    · intro hk
      obtain ⟨pr, hpr, hk⟩ := List.mem_map.mp hk
      obtain ⟨p, hp, hpr2⟩ := List.mem_flatMap.mp hpr
      obtain ⟨g, hg, rfl⟩ := List.mem_map.mp hpr2
      obtain ⟨hgG, hgeq⟩ := List.mem_filter.mp hg
      have hgp : g.filename = p.filename := of_decide_eq_true hgeq
      subst hk
      exact ⟨List.mem_map.mpr ⟨p, hp, rfl⟩, List.mem_map.mpr ⟨g, hgG, hgp⟩⟩
    · rintro ⟨hkP, hkG⟩
      obtain ⟨p, hp, hpk⟩ := List.mem_map.mp hkP
      obtain ⟨g, hg, hgk⟩ := List.mem_map.mp hkG
      refine List.mem_map.mpr ⟨(p, g), ?_, hpk⟩
      refine List.mem_flatMap.mpr ⟨p, hp, ?_⟩
      refine List.mem_map.mpr ⟨g, ?_, rfl⟩
      exact List.mem_filter.mpr ⟨hg, decide_eq_true (by rw [hgk, hpk])⟩
  · decide

/-- C4: constructing a `PredefinedGrouping` from a feature table with
`n` rows and a label list whose length is not `n` fails with
`ShapeMismatchError` (pandas raises `ValueError` inside
`Grouping._add_labels`). -/
theorem C4_predefined_grouping_shape_mismatch (data_prep : DataPrep)
    (group_labels : List String)
    (h : group_labels.length ≠ data_prep.data.nrows) :
    PredefinedGrouping.init data_prep group_labels =
      Except.error DataError.ShapeMismatchError := by
  unfold PredefinedGrouping.init assignColumn
  rw [if_neg h]
  rfl

/-- Witness for C4: a one-element label list against the two-row
`sampleDataPrep` fails with `ShapeMismatchError`. -/
theorem C4_predefined_grouping_shape_mismatch_witness :
    (["A"].length ≠ sampleDataPrep.data.nrows)
    ∧ PredefinedGrouping.init sampleDataPrep ["A"] =
        Except.error DataError.ShapeMismatchError :=
  ⟨by decide,
    C4_predefined_grouping_shape_mismatch sampleDataPrep ["A"] (by decide)⟩

/-- C5: loading a feature source that lacks the required `Filename`
identifier column fails with `DataFormatError` (pandas `KeyError` at
`self.data['Filename']`; should the hardcoded duration transform fail
first, that failure is also a missing-column `DataFormatError`). -/
theorem C5_missing_identifier_column (file_data : DF) (s : String)
    (fd : Option (List (String × String × String))) (dc : List String)
    (h : "Filename" ∉ file_data.cols) :
    dataPrepInit file_data s fd dc = Except.error DataError.DataFormatError := by
  unfold dataPrepInit applyDurationTransforms
  cases happ : durationFields.foldlM (fun acc f => transformDuration f acc) file_data with
  | error e =>
      rw [except_bind_error, foldTransform_error durationFields file_data e happ]
  | ok df' =>
      have hcols : df'.cols = file_data.cols :=
        foldTransform_cols durationFields file_data df' happ
      have hfn : "Filename" ∉ (df'.dropCols dc).cols := by
        intro hmem
        have hx := (List.mem_filter.mp hmem).1
        exact h (hcols ▸ hx)
      simp only [except_bind_ok, DF.getCol, hfn, if_false, except_bind_error]

/-- Witness for C5: a one-column source without `Filename` fails with
`DataFormatError`. -/
theorem C5_missing_identifier_column_witness :
    ("Filename" ∉ (DF.mk ["F1"] (fun _ => [1]) 1).cols)
    ∧ dataPrepInit (DF.mk ["F1"] (fun _ => [1]) 1) "read" (some []) [] =
        Except.error DataError.DataFormatError :=
  ⟨by decide,
    C5_missing_identifier_column (DF.mk ["F1"] (fun _ => [1]) 1) "read"
      (some []) [] (by decide)⟩

/-- C8: loading applies `duration := duration * articulationRate / 60`
to each hardcoded phoneme-duration field present in the source
(element-wise against the articulation-rate column), and for each such
field absent from the source it applies no transform and raises no
error; loading succeeds. -/
theorem C8_duration_normalization (file_data : DF) (s : String)
    (fd : List (String × String × String)) (dc : List String)
    (hartic : articulationField ∈ file_data.cols)
    (hfn : "Filename" ∈ file_data.cols) (hfndc : "Filename" ∉ dc) :
    ∃ dp, dataPrepInit file_data s (some fd) dc = Except.ok dp ∧
      (∀ f ∈ durationFields, f ∈ file_data.cols →
        dp.data.col f = List.zipWith (fun d a => d * a / 60) (file_data.col f)
          (file_data.col articulationField)) ∧
      (∀ f ∈ durationFields, f ∉ file_data.cols →
        dp.data.col f = file_data.col f) := by
  obtain ⟨df', happ, hcols, hother, hpres, habs⟩ :=
    applyDurationTransforms_spec file_data hartic
  have hfn' : "Filename" ∈ (df'.dropCols dc).cols := by
    apply List.mem_filter.mpr
    exact ⟨by rw [hcols]; exact hfn, decide_eq_true hfndc⟩
  refine ⟨{ speaking_style := s
            data := df'.dropCols dc
            audiofile_ids := (df'.dropCols dc).col "Filename"
            custom_features :=
              overrideFeatures (defaultCustomFeatures (df'.dropCols dc).cols) fd
            normalized_data := none }, ?_, ?_, ?_⟩
  · simp only [dataPrepInit, happ, except_bind_ok, DF.getCol, hfn', ite_true]
  · intro f hf hfc
    exact hpres f hf hfc
  · intro f hf hfc
    exact habs f hf hfc

/-- A concrete source with `Filename`, one present duration field with
value 30, and an articulation rate of 120 (so the transformed duration
is 30 × 120 / 60 = 60); the other four duration fields are absent. -/
def durDF : DF :=
  { cols := ["Filename", "Mean Duration O (s)", "Mean Articulation Rate (phpm)"]
    col := fun c =>
      if c = "Filename" then [1]
      else if c = "Mean Duration O (s)" then [30]
      else if c = "Mean Articulation Rate (phpm)" then [120]
      else []
    nrows := 1 }

/-- Witness for C8 on `durDF`: the hypotheses hold, loading succeeds
with the transformed duration column, and the transformed value is
exactly `[30 * 120 / 60]`. -/
theorem C8_duration_normalization_witness :
    (articulationField ∈ durDF.cols ∧ "Filename" ∈ durDF.cols
      ∧ "Filename" ∉ ([] : List String))
    ∧ (∃ dp, dataPrepInit durDF "read" (some []) [] = Except.ok dp ∧
        (∀ f ∈ durationFields, f ∈ durDF.cols →
          dp.data.col f = List.zipWith (fun d a => d * a / 60) (durDF.col f)
            (durDF.col articulationField)) ∧
        (∀ f ∈ durationFields, f ∉ durDF.cols → dp.data.col f = durDF.col f))
    ∧ List.zipWith (fun d a => d * a / 60) (durDF.col "Mean Duration O (s)")
        (durDF.col articulationField) = [60] :=
  ⟨⟨by decide, by decide, by decide⟩,
    C8_duration_normalization durDF "read" [] [] (by decide) (by decide) (by decide),
    by simp [durDF, articulationField]; norm_num⟩

/-- C6 (code bug): the claimed behaviour is that loading with no
caller-supplied feature mapping succeeds with the defaults
`(raw field name, "Value")`, but `DataPrep.__init__` iterates
`for csvfield in feature_dict:` without a `None` guard, so the default
`feature_dict=None` raises `TypeError`; with a supplied mapping, its
entries do override the defaults for columns present in the source. -/
theorem C6_none_feature_dict_raises (s : String) :
    dataPrepInit sampleDF s none [] = Except.error DataError.TypeError
    ∧ (dataPrepInit sampleDF s (some [("F1", "Formant", "Hz")]) []).map
        (fun dp => dp.custom_features) = Except.ok [("F1", "Formant", "Hz")]
    ∧ (dataPrepInit sampleDF s (some []) []).map
        (fun dp => dp.custom_features) = Except.ok [("F1", "F1", "Value")] :=
  ⟨rfl, rfl, rfl⟩

/-- C7: `RelDiffBias.compute_bias` returns
`(group_rate - reference_rate) / reference_rate`; when the reference is
0 the value is undefined (NaN/inf in NumPy) and an undefined operand
propagates — the computation has no special case for a zero
reference. -/
theorem C7_rel_diff_bias (g r : ℚ) (hr : r ≠ 0) :
    RelDiffBias.compute_bias (some g) (some r) = some ((g - r) / r)
    ∧ RelDiffBias.compute_bias (some g) (some 0) = none
    ∧ RelDiffBias.compute_bias none (some r) = none
    ∧ RelDiffBias.compute_bias (some g) none = none := by
  refine ⟨?_, rfl, rfl, rfl⟩
  show (if r = 0 then none else some ((g - r) / r)) = some ((g - r) / r)
  rw [if_neg hr]

/-- Witness for C7 at `g = 3`, `r = 2`. -/
theorem C7_rel_diff_bias_witness :
    ((2 : ℚ) ≠ 0)
    ∧ RelDiffBias.compute_bias (some 3) (some 2) = some ((3 - 2) / 2) :=
  ⟨by decide, (C7_rel_diff_bias 3 2 (by decide)).1⟩

/-- C10: when `normalized_data` is already computed,
`get_normalized_data` returns the stored matrix unchanged for any
scaler argument — the scaler is ignored and the object state is
untouched. -/
theorem C10_get_normalized_data_cached (dp : DataPrep) (m : List (List ℚ))
    (scaler : List (List ℚ) → List (List ℚ))
    (h : dp.normalized_data = some m) :
    get_normalized_data scaler dp = (some m, dp) := by
  unfold get_normalized_data
  rw [h]

/-- Witness for C10: a `DataPrep` holding a stored matrix returns it
unchanged under an arbitrary scaler. -/
theorem C10_get_normalized_data_cached_witness :
    (normalizedDataPrep.normalized_data = some [[0, 1]])
    ∧ get_normalized_data (fun q => q.map (fun row => row.map (fun x => x + 1)))
        normalizedDataPrep = (some [[0, 1]], normalizedDataPrep) :=
  ⟨rfl,
    C10_get_normalized_data_cached normalizedDataPrep [[0, 1]]
      (fun q => q.map (fun row => row.map (fun x => x + 1))) rfl⟩

/-- C9 as stated is false: with two recognition-output rows (two
models) sharing `Filename` 1 and one labeled feature row with
`Filename` 1, the inner join has 2 rows while the minimum input row
count is 1 — a pandas inner join multiplies duplicate keys, so its row
count is not bounded by the smaller input. -/
theorem C9_join_rowcount_counterexample :
    ¬ ((merge_data dupPerf oneFeat).length ≤ min dupPerf.length oneFeat.length) := by
  decide

/-- C9 amended: for inputs whose join keys are duplicate-free within
each table, the number of rows produced by the pipeline's inner join is
at most the minimum of the two input row counts. -/
theorem C9_join_rowcount_nodup_keys (P : List PerformanceRow)
    (G : List GroupingRow)
    (hP : (P.map (·.filename)).Nodup) (hG : (G.map (·.filename)).Nodup) :
    (merge_data P G).length ≤ min P.length G.length :=
  le_min (merge_len_le_left hG) (merge_len_le_right hP G)

/-- Witness for the amended C9 on duplicate-free inputs with ids
{2,3,4} and {1,2,3}. -/
theorem C9_join_rowcount_nodup_keys_witness :
    ((recOut234.map (·.filename)).Nodup ∧ (feat123.map (·.filename)).Nodup)
    ∧ (merge_data recOut234 feat123).length ≤ min recOut234.length feat123.length :=
  ⟨⟨by decide, by decide⟩,
    C9_join_rowcount_nodup_keys recOut234 feat123 (by decide) (by decide)⟩

end ASRBias
